import Mathlib

/-!
Verification of the video-compression script (src/video-compress-ffmpeg.py)
against its natural-language specification.

The script is shallowly embedded: Python floats become rationals (ℚ), the
subprocess environment (file existence, probe results, the encoder's stderr
lines and exit code) becomes an explicit `Env` record, and the observable
behaviour of `compress_video` (printed messages, subprocess invocations,
progress-bar advances, final outcome) becomes a `RunResult` record.
-/

namespace VideoCompress

/-! ### Timestamp extraction (lines 81-87 of the script)

The script scans each stderr line with the regular expression
`time=(\d\x7b2\x7d):(\d\x7b2\x7d):(\d\x7b2\x7d)\.(\d\x7b2\x7d)` and converts the four
captured two-digit groups to seconds. -/

/-- Numeric value of a two-digit group, as `int()` applied to the two ASCII digits. -/
def digit2 (a b : Char) : Nat := (a.toNat - 48) * 10 + (b.toNat - 48)

/-- Attempt to match the regex `time=dd:dd:dd.dd` at the head of the character list,
returning the four captured groups. Embeds one anchored attempt of `re.search`. -/
def matchTimeAt : List Char → Option (Nat × Nat × Nat × Nat)
  | 't' :: 'i' :: 'm' :: 'e' :: '=' :: h1 :: h2 :: ':' :: m1 :: m2 :: ':' :: s1 :: s2 :: '.' :: c1 :: c2 :: _ =>
    if h1.isDigit && h2.isDigit && m1.isDigit && m2.isDigit &&
       s1.isDigit && s2.isDigit && c1.isDigit && c2.isDigit then
      some (digit2 h1 h2, digit2 m1 m2, digit2 s1 s2, digit2 c1 c2)
    else
      none
  | _ => none

/-- `re.search` over the whole line: the leftmost position where the
`time=dd:dd:dd.dd` pattern matches, if any. -/
def searchTime : List Char → Option (Nat × Nat × Nat × Nat)
  | [] => none
  | c :: rest =>
    match matchTimeAt (c :: rest) with
    | some r => some r
    | none => searchTime rest

/-- Whether some position of the line carries a `time=dd:dd:dd.dd` token
(the line "contains a token of the pattern"). -/
def hasTimeToken : List Char → Bool
  | [] => false
  | c :: rest => (matchTimeAt (c :: rest)).isSome || hasTimeToken rest

/-- Line 87 of the script: `hours * 3600 + minutes * 60 + seconds + centiseconds / 100`. -/
def toSeconds (t : Nat × Nat × Nat × Nat) : ℚ :=
  (t.1 : ℚ) * 3600 + (t.2.1 : ℚ) * 60 + (t.2.2.1 : ℚ) + (t.2.2.2 : ℚ) / 100

/-- The timestamp extraction: the elapsed seconds of the leftmost matched token. -/
def extractTime (line : List Char) : Option ℚ :=
  (searchTime line).map toSeconds

/-- Two zero-padded ASCII digits of a value below 100 (how the encoder prints
each field of the timestamp). -/
def pad2 (n : Nat) : List Char := [Nat.digitChar (n / 10), Nat.digitChar (n % 10)]

/-- A well-formed `time=HH:MM:SS.CC` token built from its four field values. -/
def timeToken (h m s c : Nat) : List Char :=
  't' :: 'i' :: 'm' :: 'e' :: '=' ::
    (pad2 h ++ ':' :: pad2 m ++ ':' :: pad2 s ++ '.' :: pad2 c)

/-! ### Progress tracking (lines 78, 89-91 of the script)

`previous_time` starts at 0; on each matched reading the script advances the
bar by `current_time - previous_time` and then overwrites `previous_time`. -/

/-- The advances forwarded to the progress sink by lines 90-91 applied to a
sequence of readings, starting from the given `previous_time`. -/
def observeDeltas (prev : ℚ) : List ℚ → List ℚ
  | [] => []
  | r :: rs => (r - prev) :: observeDeltas r rs

/-- The value of `previous_time` after lines 90-91 have processed a sequence
of readings, starting from the given `previous_time`. -/
def finalPrev (prev : ℚ) : List ℚ → ℚ
  | [] => prev
  | r :: rs => finalPrev r rs

/-! ### The duration probe: `get_video_duration` (lines 6-28 of the script)

The script runs `ffprobe` with `check=True` and applies Python's `float()` to
the captured standard output, returning `None` on `FileNotFoundError`
(executable missing), `CalledProcessError` (nonzero exit, raised by
`check=True`) or `ValueError` (unparseable output). -/

/-- Value of a run of ASCII digits read left to right, as `int()` would. -/
def digitsToNat (cs : List Char) : Nat :=
  cs.foldl (fun a c => a * 10 + (c.toNat - 48)) 0

/-- An optionally signed nonempty digit run (the exponent part accepted by
`float()`), as an integer. -/
def parseSignedDigits (cs : List Char) : Option Int :=
  match cs with
  | '+' :: ds =>
    if ds ≠ [] ∧ ds.all (fun c => c.isDigit) then some (digitsToNat ds : Int) else none
  | '-' :: ds =>
    if ds ≠ [] ∧ ds.all (fun c => c.isDigit) then some (-(digitsToNat ds : Int)) else none
  | ds =>
    if ds ≠ [] ∧ ds.all (fun c => c.isDigit) then some (digitsToNat ds : Int) else none

/-- The optional exponent suffix accepted by `float()`: empty, or `e`/`E`
followed by an optionally signed digit run. -/
def parseExp : List Char → Option Int
  | [] => some 0
  | 'e' :: rest => parseSignedDigits rest
  | 'E' :: rest => parseSignedDigits rest
  | _ => none

/-- The body of a `float()` literal after the optional sign: a digit run with
an optional fractional part (at least one digit on one side of the point) and
an optional exponent. -/
def pyFloatCore (cs : List Char) : Option ℚ :=
  let intDigits := cs.takeWhile (fun c => c.isDigit)
  let rest := cs.dropWhile (fun c => c.isDigit)
  match rest with
  | '.' :: rest2 =>
    let fracDigits := rest2.takeWhile (fun c => c.isDigit)
    let rest3 := rest2.dropWhile (fun c => c.isDigit)
    if intDigits = [] ∧ fracDigits = [] then none
    else
      match parseExp rest3 with
      | some e =>
        some (((digitsToNat intDigits : ℚ) +
          (digitsToNat fracDigits : ℚ) / 10 ^ fracDigits.length) * 10 ^ e)
      | none => none
  | _ =>
    if intDigits = [] then none
    else
      match parseExp rest with
      | some e => some ((digitsToNat intDigits : ℚ) * 10 ^ e)
      | none => none

/-- Models the Python builtin `float(str)` on ordinary decimal strings:
surrounding whitespace is ignored, then an optional sign and a decimal
number with optional fraction and exponent. The special values `inf` and
`nan` and digit-group underscores have no counterpart in the rational
embedding and are outside this model. `none` models `ValueError`. -/
def pyFloat (cs : List Char) : Option ℚ :=
  let stripped :=
    (((cs.dropWhile (fun c => c.isWhitespace)).reverse.dropWhile
      (fun c => c.isWhitespace)).reverse)
  match stripped with
  | '+' :: r => pyFloatCore r
  | '-' :: r => (pyFloatCore r).map (fun q => -q)
  | r => pyFloatCore r

/-- The environment's response to the one `ffprobe` invocation: either the
executable is missing (`FileNotFoundError`), or it ran and produced an exit
code and a standard-output text. -/
inductive ProbeResult where
  | notFound : ProbeResult
  | ran (exitCode : Int) (stdout : List Char) : ProbeResult
deriving DecidableEq

/-- `get_video_duration` (lines 6-28): `float(result.stdout)` on success,
`None` on `FileNotFoundError`, `CalledProcessError` (nonzero exit with
`check=True`) or `ValueError` (unparseable stdout). -/
def get_video_duration (pr : ProbeResult) : Option ℚ :=
  match pr with
  | .notFound => none
  | .ran ec out => if ec ≠ 0 then none else pyFloat out

/-! ### Per-line processing inside the stderr loop (lines 79-91)

A line is searched for the timestamp; the progress state is updated only when
a match is found AND a real progress bar exists (`isinstance(pbar, tqdm)`). -/

/-- One iteration of the stderr loop (lines 79-91): given whether a real
progress bar exists and the current `previous_time`, returns the new
`previous_time` and the advances forwarded to the bar by this line. -/
def processLine (hasBar : Bool) (prev : ℚ) (line : List Char) : ℚ × List ℚ :=
  match searchTime line with
  | some t =>
    if hasBar then (toSeconds t, [toSeconds t - prev]) else (prev, [])
  | none => (prev, [])

/-- The whole stderr loop over a list of lines, threading `previous_time`
and collecting every forwarded advance in order. -/
def processLines (hasBar : Bool) (prev : ℚ) : List (List Char) → ℚ × List ℚ
  | [] => (prev, [])
  | l :: ls =>
    let st := processLine hasBar prev l
    let rest := processLines hasBar st.1 ls
    (rest.1, st.2 ++ rest.2)

/-! ### The encode operation: `compress_video` (lines 30-102) -/

/-- A subprocess invocation performed by `compress_video`: the `ffprobe` run
inside `get_video_duration`, or the `ffmpeg` child started by `Popen`. -/
inductive Event where
  | probeInvoked : Event
  | encoderLaunched : Event
deriving DecidableEq

/-- The terminal outcome of one `compress_video` call, one per print path of
lines 49, 95, 97, 100 and 102. -/
inductive EncodeOutcome where
  | inputNotFound : EncodeOutcome
  | toolNotFound : EncodeOutcome
  | unexpected (detail : String) : EncodeOutcome
  | failure (code : Int) : EncodeOutcome
  | success : EncodeOutcome
deriving DecidableEq

/-- The environment one `compress_video` call runs in: whether the input path
exists, how `ffprobe` responds, whether `ffmpeg` can be launched, the stderr
lines the child emits, its exit code, and an optional exception raised while
streaming (the `except Exception` path). -/
structure Env where
  inputExists : Bool
  probe : ProbeResult
  ffmpegFound : Bool
  stderrLines : List (List Char)
  returncode : Int
  ioError : Option String
deriving DecidableEq

/-- The observable behaviour of one `compress_video` call: the messages
printed in order, the subprocess invocations performed, the final outcome,
whether a progress bar was created, the advances forwarded to it, and the
final `previous_time`. -/
structure RunResult where
  messages : List String
  events : List Event
  outcome : EncodeOutcome
  barShown : Bool
  advances : List ℚ
  finalTime : ℚ
deriving DecidableEq

/-- The `ffmpeg` command line built at lines 58-67. -/
def ffmpegCommand (inputPath outputPath : String) (crf : Int) : List String :=
  ["ffmpeg", "-y", "-i", inputPath, "-c:v", "libx264", "-crf", toString crf,
   "-preset", "slow", "-c:a", "copy", outputPath]

/-- Line 49's message. -/
def inputNotFoundMsg (inputPath : String) : String :=
  "Error: Input file not found at '" ++ inputPath ++ "'"

/-- Line 55's message. -/
def noDurationMsg : String :=
  "Warning: Could not get video duration. Progress bar will not be shown."

/-- Line 100's message. -/
def toolNotFoundMsg : String :=
  "Error: 'ffmpeg' or 'ffprobe' not found. Please ensure it is installed and in your system's PATH."

/-- Line 95's message: the error report carrying the child's exit code. -/
def failureMsg (rc : Int) : String :=
  "\nAn error occurred during compression. FFmpeg returned code " ++ toString rc

/-- Line 97's message. -/
def successMsg : String := "\nVideo compressed successfully!"

/-- Line 102's message. -/
def unexpectedMsg (detail : String) : String :=
  "An unexpected error occurred: " ++ detail

/-- Lines 70-71's messages. -/
def startMsgs (inputPath outputPath : String) (crf : Int) : List String :=
  ["Starting compression for '" ++ inputPath ++ "'...",
   "FFmpeg command: " ++ String.intercalate " " (ffmpegCommand inputPath outputPath crf)]

/-- `compress_video` (lines 30-102). The input-existence check short-circuits
before any subprocess work; then `get_video_duration` runs once; a missing
duration only prints a warning; the progress bar exists only when the duration
is truthy (a Python float is falsy exactly when it is zero); the stderr loop
feeds the bar; the exit code is classified after the stream drains.
`FileNotFoundError` from `Popen` and any streaming exception are caught and
reported. -/
def compress_video (inputPath outputPath : String) (crf : Int) (env : Env) : RunResult :=
  if env.inputExists = false then
    { messages := [inputNotFoundMsg inputPath], events := [], outcome := .inputNotFound,
      barShown := false, advances := [], finalTime := 0 }
  else
    let dur := get_video_duration env.probe
    let warnMsgs := match dur with | none => [noDurationMsg] | some _ => []
    let pre := warnMsgs ++ startMsgs inputPath outputPath crf
    if env.ffmpegFound = false then
      { messages := pre ++ [toolNotFoundMsg], events := [.probeInvoked],
        outcome := .toolNotFound, barShown := false, advances := [], finalTime := 0 }
    else
      match env.ioError with
      | some e =>
        { messages := pre ++ [unexpectedMsg e],
          events := [.probeInvoked, .encoderLaunched],
          outcome := .unexpected e, barShown := false, advances := [], finalTime := 0 }
      | none =>
        let hasBar := match dur with | none => false | some d => decide (d ≠ 0)
        let st := processLines hasBar 0 env.stderrLines
        if env.returncode ≠ 0 then
          { messages := pre ++ [failureMsg env.returncode],
            events := [.probeInvoked, .encoderLaunched],
            outcome := .failure env.returncode, barShown := hasBar,
            advances := st.2, finalTime := st.1 }
        else
          { messages := pre ++ [successMsg],
            events := [.probeInvoked, .encoderLaunched],
            outcome := .success, barShown := hasBar,
            advances := st.2, finalTime := st.1 }

/-! ### The `__main__` block (lines 105-128)

The block hardcodes the two paths and `crf=28`, creates a dummy input when
the input is missing and `ffmpeg` can build it, then calls `compress_video`
only when the input exists afterwards. No path of the script calls
`sys.exit` and every exception is caught, so the interpreter always
terminates normally: the process exit status is 0 on every path. -/

/-- The `__main__` block: the `compress_video` result when it is reached
(with the input existing, directly or via the dummy file), and the process
exit status of the script. -/
def mainScript (env : Env) (dummyCreatable : Bool) : Option RunResult × Nat :=
  if env.inputExists then
    (some (compress_video "kellogs 1.0.mov" "compressed_output.mp4" 28 env), 0)
  else if dummyCreatable then
    (some (compress_video "kellogs 1.0.mov" "compressed_output.mp4" 28
      { env with inputExists := true }), 0)
  else
    (none, 0)

/-! ### Helper lemmas -/

/-- A digit character built from a value below 10 satisfies the regex class `\d`. -/
lemma isDigit_digitChar {d : Nat} (hd : d < 10) : (Nat.digitChar d).isDigit = true := by
  revert hd
  revert d
  decide

/-- Code point of a digit character built from a value below 10. -/
lemma toNat_digitChar {d : Nat} (hd : d < 10) : (Nat.digitChar d).toNat = 48 + d := by
  revert hd
  revert d
  decide

/-- A character matched by the regex class `\d` has a code point between 48 and 57. -/
lemma toNat_of_isDigit {c : Char} (h : c.isDigit = true) : 48 ≤ c.toNat ∧ c.toNat ≤ 57 := by
  simp [Char.isDigit] at h
  exact h

/-- Reading back the two zero-padded digits of a value below 100 recovers it. -/
lemma digit2_pad (n : Nat) (hn : n < 100) :
    digit2 (Nat.digitChar (n / 10)) (Nat.digitChar (n % 10)) = n := by
  have h1 : n / 10 < 10 := by omega
  have h2 : n % 10 < 10 := by omega
  rw [digit2, toNat_digitChar h1, toNat_digitChar h2]
  omega

/-- The value of a two-digit group is below 100. -/
lemma digit2_lt (a b : Char) (ha : a.isDigit = true) (hb : b.isDigit = true) :
    digit2 a b < 100 := by
  obtain ⟨ha1, ha2⟩ := toNat_of_isDigit ha
  obtain ⟨hb1, hb2⟩ := toNat_of_isDigit hb
  rw [digit2]
  omega

/-- A successful anchored match yields four field values below 100. -/
lemma matchTimeAt_bounds {l : List Char} {h m s c : Nat}
    (hm : matchTimeAt l = some (h, m, s, c)) :
    h < 100 ∧ m < 100 ∧ s < 100 ∧ c < 100 := by
  unfold matchTimeAt at hm
  split at hm
  case _ h1 h2 m1 m2 s1 s2 c1 c2 _ =>
    split at hm
    case isTrue hd =>
      simp only [Bool.and_eq_true] at hd
      obtain ⟨⟨⟨⟨⟨⟨⟨d1, d2⟩, d3⟩, d4⟩, d5⟩, d6⟩, d7⟩, d8⟩ := hd
      obtain ⟨rfl, rfl, rfl, rfl⟩ := Prod.mk.injEq .. ▸ (by
        have := hm
        simp only [Option.some.injEq, Prod.mk.injEq] at this
        exact ⟨this.1.symm, this.2.1.symm, this.2.2.1.symm, this.2.2.2.symm⟩ :
          h = digit2 h1 h2 ∧ m = digit2 m1 m2 ∧ s = digit2 s1 s2 ∧ c = digit2 c1 c2)
      exact ⟨digit2_lt _ _ d1 d2, digit2_lt _ _ d3 d4, digit2_lt _ _ d5 d6, digit2_lt _ _ d7 d8⟩
    case isFalse => exact absurd hm (by simp)
  case _ => exact absurd hm (by simp)

/-- Every value returned by the leftmost search comes from an anchored match at
some suffix of the line. -/
lemma searchTime_sound {l : List Char} {r : Nat × Nat × Nat × Nat}
    (h : searchTime l = some r) : ∃ l', matchTimeAt l' = some r := by
  induction l with
  | nil => simp [searchTime] at h
  | cons x xs ih =>
    rw [searchTime] at h
    rcases hx : matchTimeAt (x :: xs) with _ | v
    · rw [hx] at h
      exact ih h
    · rw [hx] at h
      exact ⟨x :: xs, hx.trans h⟩

/-- A line with a token somewhere makes the leftmost search succeed. -/
lemma searchTime_isSome_of_hasToken {l : List Char} (h : hasTimeToken l = true) :
    (searchTime l).isSome = true := by
  induction l with
  | nil => simp [hasTimeToken] at h
  | cons x xs ih =>
    rw [hasTimeToken, Bool.or_eq_true] at h
    rw [searchTime]
    rcases hx : matchTimeAt (x :: xs) with _ | v
    · rcases h with h | h
      · rw [hx] at h
        simp at h
      · exact ih h
    · simp

/-- A line with no token anywhere makes the leftmost search fail. -/
lemma searchTime_eq_none_of_no_token {l : List Char} (h : hasTimeToken l = false) :
    searchTime l = none := by
  induction l with
  | nil => rfl
  | cons x xs ih =>
    rw [hasTimeToken, Bool.or_eq_false_iff] at h
    rw [searchTime]
    rcases hx : matchTimeAt (x :: xs) with _ | v
    · exact ih h.2
    · rw [hx] at h
      simp at h

/-- The anchored match succeeds on a well-formed token built from field
values below 100, whatever follows it. -/
lemma matchTimeAt_token (h m s c : Nat) (hh : h < 100) (hm : m < 100)
    (hs : s < 100) (hc : c < 100) (suf : List Char) :
    matchTimeAt (timeToken h m s c ++ suf) = some (h, m, s, c) := by
  have e : timeToken h m s c ++ suf =
      't' :: 'i' :: 'm' :: 'e' :: '=' ::
      Nat.digitChar (h / 10) :: Nat.digitChar (h % 10) :: ':' ::
      Nat.digitChar (m / 10) :: Nat.digitChar (m % 10) :: ':' ::
      Nat.digitChar (s / 10) :: Nat.digitChar (s % 10) :: '.' ::
      Nat.digitChar (c / 10) :: Nat.digitChar (c % 10) :: suf := by
    simp [timeToken, pad2]
  rw [e, matchTimeAt]
  rw [if_pos]
  · rw [digit2_pad h hh, digit2_pad m hm, digit2_pad s hs, digit2_pad c hc]
  · simp only [Bool.and_eq_true]
    refine ⟨⟨⟨⟨⟨⟨⟨?_, ?_⟩, ?_⟩, ?_⟩, ?_⟩, ?_⟩, ?_⟩, ?_⟩ <;>
      exact isDigit_digitChar (by omega)

/-- The leftmost search on a list whose head position already matches returns
that match. -/
lemma searchTime_cons_of_match {x : Char} {xs : List Char} {r : Nat × Nat × Nat × Nat}
    (hm : matchTimeAt (x :: xs) = some r) : searchTime (x :: xs) = some r := by
  rw [searchTime, hm]

/-- The leftmost search succeeds immediately on a line starting with a
well-formed token. -/
lemma searchTime_token (h m s c : Nat) (hh : h < 100) (hm : m < 100)
    (hs : s < 100) (hc : c < 100) (suf : List Char) :
    searchTime (timeToken h m s c ++ suf) = some (h, m, s, c) :=
  searchTime_cons_of_match (matchTimeAt_token h m s c hh hm hs hc suf)

/-- Line 90-91 with no bar present leaves the state unchanged and forwards nothing. -/
lemma processLine_noBar (prev : ℚ) (l : List Char) :
    processLine false prev l = (prev, []) := by
  rw [processLine]
  rcases searchTime l with _ | t <;> simp

/-- The whole loop with no bar present leaves the state unchanged and forwards nothing. -/
lemma processLines_noBar (prev : ℚ) (ls : List (List Char)) :
    processLines false prev ls = (prev, []) := by
  induction ls generalizing prev with
  | nil => rfl
  | cons l ls ih => rw [processLines, processLine_noBar, ih]; simp

/-- Telescoping: the starting state plus all forwarded deltas equals the final state. -/
lemma telescope (rs : List ℚ) : ∀ prev : ℚ, prev + (observeDeltas prev rs).sum = finalPrev prev rs := by
  induction rs with
  | nil => intro prev; simp [observeDeltas, finalPrev]
  | cons r rs ih =>
    intro prev
    rw [observeDeltas, finalPrev, List.sum_cons, ← ih r]
    ring

/-- The tracker state after a run of readings is the last reading (or the
starting state when there are none). -/
lemma finalPrev_getLastD (rs : List ℚ) : ∀ prev : ℚ, finalPrev prev rs = rs.getLastD prev := by
  induction rs with
  | nil => intro prev; rfl
  | cons r rs ih => intro prev; rw [finalPrev, List.getLastD_cons, ih r]

/-! ### Claim theorems -/

/-- C1: For every line containing a `time=HH:MM:SS.CC` token (two zero-padded
ASCII digits per field) the timestamp extraction returns exactly
`hours * 3600 + minutes * 60 + seconds + centiseconds / 100` for the matched
token's fields; a line starting with a well-formed token yields that token's
value whatever follows; and extracting from `time=00:01:30.50` yields 90.5. -/
theorem timestamp_extraction_exact :
    (∀ line : List Char, hasTimeToken line = true →
      ∃ h m s c : Nat, (h < 100 ∧ m < 100 ∧ s < 100 ∧ c < 100) ∧
        extractTime line = some ((h : ℚ) * 3600 + (m : ℚ) * 60 + (s : ℚ) + (c : ℚ) / 100)) ∧
    (∀ h m s c : Nat, h < 100 → m < 100 → s < 100 → c < 100 → ∀ suf : List Char,
      extractTime (timeToken h m s c ++ suf) =
        some ((h : ℚ) * 3600 + (m : ℚ) * 60 + (s : ℚ) + (c : ℚ) / 100)) ∧
    extractTime (String.toList "time=00:01:30.50") = some (90.5 : ℚ) := by
  refine ⟨?_, ?_, ?_⟩
  · intro line hline
    obtain ⟨r, hr⟩ := Option.isSome_iff_exists.mp (searchTime_isSome_of_hasToken hline)
    obtain ⟨h, m, s, c⟩ := r
    obtain ⟨l', hl'⟩ := searchTime_sound hr
    obtain ⟨b1, b2, b3, b4⟩ := matchTimeAt_bounds hl'
    refine ⟨h, m, s, c, ⟨b1, b2, b3, b4⟩, ?_⟩
    rw [extractTime, hr]
    rfl
  · intro h m s c hh hm hs hc suf
    rw [extractTime, searchTime_token h m s c hh hm hs hc suf]
    rfl
  · have e : String.toList "time=00:01:30.50" = timeToken 0 1 30 50 ++ [] := by decide
    rw [e, extractTime,
      searchTime_token 0 1 30 50 (by norm_num) (by norm_num) (by norm_num) (by norm_num)]
    norm_num [toSeconds]

/-- Witness for C1: the token with fields 0, 1, 30, 50 extracts to 90.5, and
the line `frame=1 time=01:02:03.04 x` carries a token whose extraction obeys
the formula. -/
theorem timestamp_extraction_exact_witness :
    extractTime (timeToken 0 1 30 50 ++ []) =
      some ((0 : ℚ) * 3600 + (1 : ℚ) * 60 + (30 : ℚ) + (50 : ℚ) / 100) ∧
    (∃ h m s c : Nat, (h < 100 ∧ m < 100 ∧ s < 100 ∧ c < 100) ∧
      extractTime (String.toList "frame=1 time=01:02:03.04 x") =
        some ((h : ℚ) * 3600 + (m : ℚ) * 60 + (s : ℚ) + (c : ℚ) / 100)) :=
  ⟨timestamp_extraction_exact.2.1 0 1 30 50 (by decide) (by decide) (by decide) (by decide) [],
   timestamp_extraction_exact.1 (String.toList "frame=1 time=01:02:03.04 x") (by decide)⟩

/-- C2: Each observation forwards the delta `reading - previous_reading` to
the sink and then overwrites `previous_reading`, so the forwarded deltas
telescope: their sum equals the final reading; for `[0, 10, 25, 25, 40]` the
deltas are `[0, 10, 15, 0, 15]` with total 40. -/
theorem observe_deltas_telescope :
    (∀ prev : ℚ, ∀ rs : List ℚ, prev + (observeDeltas prev rs).sum = finalPrev prev rs) ∧
    (∀ rs : List ℚ, (observeDeltas 0 rs).sum = rs.getLastD 0) ∧
    observeDeltas 0 [(0 : ℚ), 10, 25, 25, 40] = [0, 10, 15, 0, 15] ∧
    (observeDeltas 0 [(0 : ℚ), 10, 25, 25, 40]).sum = 40 := by
  refine ⟨fun prev rs => telescope rs prev, fun rs => ?_,
    by norm_num [observeDeltas], by norm_num [observeDeltas]⟩
  have h := telescope rs 0
  rw [zero_add] at h
  rw [h, finalPrev_getLastD]

/-- C3 counterexample: the readings `[10, 5]` make the tracker forward the
negative advance `-5` and lower `previous_reading` from 10 to 5, so
`previous_reading` is not monotonically non-decreasing and regressions are
not ignored. -/
theorem tracker_not_monotone_counterexample :
    observeDeltas 0 [(10 : ℚ), 5] = [10, -5] ∧
    finalPrev 0 [(10 : ℚ), 5] = 5 ∧
    ((-5 : ℚ) < 0) ∧ ((5 : ℚ) < 10) := by
  refine ⟨by norm_num [observeDeltas], by norm_num [finalPrev], by norm_num, by norm_num⟩

/-- C3 amended: `previous_reading` starts at 0 but is not monotone: each
observation unconditionally forwards the raw delta `reading - previous_reading`
and overwrites `previous_reading` with the new reading, so after any run of
readings the state equals the last reading even when it regressed; the
readings `[10, 5]` forward `[10, -5]` and leave the state at 5. -/
theorem tracker_overwrites_state :
    (∀ prev r : ℚ, ∀ rs : List ℚ,
      observeDeltas prev (r :: rs) = (r - prev) :: observeDeltas r rs ∧
      finalPrev prev (r :: rs) = finalPrev r rs) ∧
    (∀ prev : ℚ, ∀ rs : List ℚ, finalPrev prev rs = rs.getLastD prev) ∧
    observeDeltas 0 [(10 : ℚ), 5] = [10, -5] ∧
    finalPrev 0 [(10 : ℚ), 5] = 5 := by
  exact ⟨fun prev r rs => ⟨rfl, rfl⟩, fun prev rs => finalPrev_getLastD rs prev,
    by norm_num [observeDeltas], by norm_num [finalPrev]⟩

/-- For every outcome `compress_video` can produce, the corresponding
human-readable message is among the printed messages. -/
lemma compress_video_messages (inP outP : String) (crf : Int) (env : Env) :
    ((compress_video inP outP crf env).outcome = .inputNotFound →
      (compress_video inP outP crf env).messages = [inputNotFoundMsg inP]) ∧
    ((compress_video inP outP crf env).outcome = .toolNotFound →
      toolNotFoundMsg ∈ (compress_video inP outP crf env).messages) ∧
    (∀ e, (compress_video inP outP crf env).outcome = .unexpected e →
      unexpectedMsg e ∈ (compress_video inP outP crf env).messages) ∧
    (∀ rc, (compress_video inP outP crf env).outcome = .failure rc →
      failureMsg rc ∈ (compress_video inP outP crf env).messages) ∧
    ((compress_video inP outP crf env).outcome = .success →
      successMsg ∈ (compress_video inP outP crf env).messages) := by
  obtain ⟨ie, pr, ff, sl, rc, io⟩ := env
  cases ie <;> cases ff <;> rcases io with _ | e <;> by_cases hrc : rc = 0 <;>
    simp [compress_video, hrc]

/-- C4: With the input present, the encoder launchable and the stream read
without incident, the child's exit code is classified exactly: 0 gives the
success outcome, and any nonzero code N gives the failure outcome carrying N,
with the surfaced message containing the decimal digits of N. -/
theorem exit_code_classified (inP outP : String) (crf : Int) (env : Env)
    (hIn : env.inputExists = true) (hFF : env.ffmpegFound = true)
    (hStream : env.ioError = none) :
    (env.returncode = 0 → (compress_video inP outP crf env).outcome = .success) ∧
    (env.returncode ≠ 0 →
      (compress_video inP outP crf env).outcome = .failure env.returncode ∧
      failureMsg env.returncode ∈ (compress_video inP outP crf env).messages ∧
      ∃ pre : String, failureMsg env.returncode = pre ++ toString env.returncode) := by
  obtain ⟨ie, pr, ff, sl, rc, io⟩ := env
  simp only at hIn hFF hStream
  subst hIn
  subst hFF
  subst hStream
  constructor
  · intro h0
    simp only at h0
    simp [compress_video, h0]
  · intro hne
    simp only at hne
    refine ⟨?_, ?_,
      ⟨"\nAn error occurred during compression. FFmpeg returned code ", rfl⟩⟩
    · simp [compress_video, hne]
    · simp [compress_video, hne]

/-- Witness for C4: a run whose child exits with code 1 is classified as
the failure outcome carrying 1 and prints the message carrying 1. -/
theorem exit_code_classified_witness :
    (compress_video "in.mp4" "out.mp4" 28
      ⟨true, .notFound, true, [], 1, none⟩).outcome = EncodeOutcome.failure 1 ∧
    failureMsg 1 ∈ (compress_video "in.mp4" "out.mp4" 28
      ⟨true, .notFound, true, [], 1, none⟩).messages := by
  have h := (exit_code_classified "in.mp4" "out.mp4" 28
    ⟨true, .notFound, true, [], 1, none⟩ rfl rfl rfl).2 (by norm_num)
  exact ⟨h.1, h.2.1⟩

/-- C5: When the input path does not exist, `compress_video` short-circuits:
it prints only the input-not-found message, performs no subprocess invocation
(neither the duration probe nor the encoder), creates no progress bar,
forwards nothing and ends with the input-not-found outcome. -/
theorem input_missing_short_circuits (inP outP : String) (crf : Int) (env : Env)
    (h : env.inputExists = false) :
    compress_video inP outP crf env =
      { messages := [inputNotFoundMsg inP], events := [], outcome := .inputNotFound,
        barShown := false, advances := [], finalTime := 0 } := by
  simp [compress_video, h]

/-- Witness for C5: a concrete missing-input run performs no subprocess work. -/
theorem input_missing_short_circuits_witness :
    compress_video "gone.mp4" "out.mp4" 28
      ⟨false, .ran 0 (String.toList "7.0"), true, [String.toList "time=00:00:01.00"], 0, none⟩ =
      { messages := [inputNotFoundMsg "gone.mp4"], events := [],
        outcome := .inputNotFound, barShown := false, advances := [], finalTime := 0 } :=
  input_missing_short_circuits "gone.mp4" "out.mp4" 28 _ rfl

/-- C6: A failed duration probe is recovered locally: the warning is printed,
no progress bar is created, the encoder is still launched, and a zero exit
code still yields the success outcome. -/
theorem probe_failure_not_fatal (inP outP : String) (crf : Int) (env : Env)
    (hIn : env.inputExists = true) (hFF : env.ffmpegFound = true)
    (hStream : env.ioError = none) (hProbe : get_video_duration env.probe = none)
    (hRC : env.returncode = 0) :
    (compress_video inP outP crf env).outcome = .success ∧
    Event.encoderLaunched ∈ (compress_video inP outP crf env).events ∧
    (compress_video inP outP crf env).barShown = false ∧
    noDurationMsg ∈ (compress_video inP outP crf env).messages := by
  obtain ⟨ie, pr, ff, sl, rc, io⟩ := env
  simp only at hIn hFF hStream hProbe hRC
  subst hIn
  subst hFF
  subst hStream
  subst hRC
  simp [compress_video, hProbe]

/-- Witness for C6: with a missing `ffprobe` and a child exiting 0, the run
still succeeds after launching the encoder. -/
theorem probe_failure_not_fatal_witness :
    (compress_video "in.mp4" "out.mp4" 28
      ⟨true, .notFound, true, [String.toList "time=00:00:01.00"], 0, none⟩).outcome =
      EncodeOutcome.success ∧
    Event.encoderLaunched ∈ (compress_video "in.mp4" "out.mp4" 28
      ⟨true, .notFound, true, [String.toList "time=00:00:01.00"], 0, none⟩).events := by
  have h := probe_failure_not_fatal "in.mp4" "out.mp4" 28
    ⟨true, .notFound, true, [String.toList "time=00:00:01.00"], 0, none⟩
    rfl rfl rfl rfl rfl
  exact ⟨h.1, h.2.1⟩

/-- C7 counterexample: standard output `-1.0` with exit code 0 is not one of
the three failure cases, yet the probe returns the negative value -1, so the
probe does not always return a non-negative number of seconds. -/
theorem probe_negative_value_counterexample :
    pyFloat (String.toList "-1.0") = some (-1 : ℚ) ∧
    get_video_duration (.ran 0 (String.toList "-1.0")) = some (-1 : ℚ) ∧
    ¬(0 : ℚ) ≤ (-1 : ℚ) := by
  refine ⟨?_, ?_, by norm_num⟩
  · simp [pyFloat, pyFloatCore, parseExp, parseSignedDigits, digitsToNat]
  · simp [get_video_duration, pyFloat, pyFloatCore, parseExp, parseSignedDigits,
      digitsToNat]

/-- C7 amended: the probe returns the unknown value `none`, rather than
raising, in exactly the three failure cases — executable not found, nonzero
exit status, or stdout not parseable as a float — and otherwise returns the
parsed number of seconds as-is (the sign is not validated). -/
theorem get_video_duration_cases :
    get_video_duration .notFound = none ∧
    (∀ ec : Int, ∀ out : List Char, ec ≠ 0 → get_video_duration (.ran ec out) = none) ∧
    (∀ out : List Char, pyFloat out = none → get_video_duration (.ran 0 out) = none) ∧
    (∀ out : List Char, ∀ q : ℚ, pyFloat out = some q →
      get_video_duration (.ran 0 out) = some q) := by
  refine ⟨rfl, ?_, ?_, ?_⟩ <;> intros <;> simp [get_video_duration, *]

/-- Witness for C7: a nonzero exit, an unparseable output and a parseable
output each produce the value the amended claim assigns them. -/
theorem get_video_duration_cases_witness :
    get_video_duration (.ran 1 []) = none ∧
    get_video_duration (.ran 0 (String.toList "abc")) = none ∧
    get_video_duration (.ran 0 (String.toList "7.5")) = some ((15 : ℚ) / 2) :=
  ⟨get_video_duration_cases.2.1 1 [] (by norm_num),
   get_video_duration_cases.2.2.1 _
     (by simp [pyFloat, pyFloatCore, parseExp, parseSignedDigits, digitsToNat]),
   get_video_duration_cases.2.2.2 _ _
     (by simp [pyFloat, pyFloatCore, parseExp, parseSignedDigits, digitsToNat]; norm_num)⟩

/-- C8: A line carrying no `time=HH:MM:SS.CC` token extracts to no match, and
processing it leaves `previous_time` unchanged and forwards nothing to the
sink, whether or not a progress bar exists. -/
theorem no_token_line_no_effect (line : List Char)
    (h : hasTimeToken line = false) :
    extractTime line = none ∧
    ∀ (hb : Bool) (prev : ℚ), processLine hb prev line = (prev, []) := by
  have hs := searchTime_eq_none_of_no_token h
  refine ⟨?_, ?_⟩
  · rw [extractTime, hs]
    rfl
  · intro hb prev
    simp [processLine, hs]

/-- Witness for C8: a typical tokenless encoder diagnostic line changes nothing. -/
theorem no_token_line_no_effect_witness :
    extractTime (String.toList "frame= 120 fps=30 q=28.0 size=256KiB") = none ∧
    processLine true 7 (String.toList "frame= 120 fps=30 q=28.0 size=256KiB") = (7, []) :=
  ⟨(no_token_line_no_effect _ (by decide)).1,
   (no_token_line_no_effect _ (by decide)).2 true 7⟩

/-- C9 counterexample: a run whose child exits with code 1 ends with the
failure outcome, yet the script's process exit status is 0, not nonzero. -/
theorem cli_exit_status_counterexample :
    (mainScript ⟨true, .notFound, true, [], 1, none⟩ false).2 = 0 ∧
    Option.map RunResult.outcome (mainScript ⟨true, .notFound, true, [], 1, none⟩ false).1 =
      some (EncodeOutcome.failure 1) := by
  constructor
  · rfl
  · norm_num [mainScript, compress_video]

/-- C9 amended: the entry point always terminates with process exit status 0,
whatever the outcome; the outcomes are distinguished only by the printed
human-readable messages (input not found, tool not found, the nonzero exit
code in decimal, unexpected error, success). -/
theorem cli_always_exits_zero :
    (∀ env : Env, ∀ d : Bool, (mainScript env d).2 = 0) ∧
    (∀ env : Env, ∀ d : Bool, ∀ r : RunResult, (mainScript env d).1 = some r →
      ((r.outcome = .inputNotFound → r.messages = [inputNotFoundMsg "kellogs 1.0.mov"]) ∧
       (r.outcome = .toolNotFound → toolNotFoundMsg ∈ r.messages) ∧
       (∀ e, r.outcome = .unexpected e → unexpectedMsg e ∈ r.messages) ∧
       (∀ rc, r.outcome = .failure rc → failureMsg rc ∈ r.messages) ∧
       (r.outcome = .success → successMsg ∈ r.messages))) := by
  constructor
  · intro env d
    rw [mainScript]
    split
    · rfl
    · split <;> rfl
  · intro env d r hr
    rw [mainScript] at hr
    split at hr
    · simp only [Option.some.injEq] at hr
      subst hr
      exact compress_video_messages _ _ _ _
    · split at hr
      · simp only [Option.some.injEq] at hr
        subst hr
        exact compress_video_messages _ _ _ _
      · simp at hr

/-- Witness for C9: the concrete failing run exits with status 0 and prints
the message carrying the child's exit code 1. -/
theorem cli_always_exits_zero_witness :
    (mainScript ⟨true, .notFound, true, [], 1, none⟩ false).2 = 0 ∧
    failureMsg 1 ∈ (compress_video "kellogs 1.0.mov" "compressed_output.mp4" 28
      ⟨true, .notFound, true, [], 1, none⟩).messages := by
  refine ⟨cli_always_exits_zero.1 ⟨true, .notFound, true, [], 1, none⟩ false, ?_⟩
  exact (cli_always_exits_zero.2 ⟨true, .notFound, true, [], 1, none⟩ false _ rfl).2.2.2.1 1
    (by norm_num [compress_video])

/-- C10: A probe that succeeds with exactly 0.0 seconds is treated like an
unknown duration, because a zero float is falsy in the progress-bar
condition: no progress bar is created, timestamp matches update nothing,
and the encode proceeds to its usual exit-code classification. -/
theorem zero_duration_no_bar (inP outP : String) (crf : Int) (env : Env)
    (hIn : env.inputExists = true) (hFF : env.ffmpegFound = true)
    (hStream : env.ioError = none) (hDur : get_video_duration env.probe = some 0) :
    (compress_video inP outP crf env).barShown = false ∧
    (compress_video inP outP crf env).advances = [] ∧
    (compress_video inP outP crf env).finalTime = 0 ∧
    (env.returncode = 0 → (compress_video inP outP crf env).outcome = .success) ∧
    (env.returncode ≠ 0 →
      (compress_video inP outP crf env).outcome = .failure env.returncode) ∧
    Event.encoderLaunched ∈ (compress_video inP outP crf env).events := by
  obtain ⟨ie, pr, ff, sl, rc, io⟩ := env
  simp only at hIn hFF hStream hDur
  subst hIn
  subst hFF
  subst hStream
  by_cases hrc : rc = 0 <;>
    simp [compress_video, hDur, hrc, processLines_noBar]

/-- Witness for C10: a probe reporting `0.0` on a run whose stderr carries a
timestamp line creates no bar, forwards nothing and still succeeds. -/
theorem zero_duration_no_bar_witness :
    (compress_video "in.mp4" "out.mp4" 28
      ⟨true, .ran 0 (String.toList "0.0"), true,
        [String.toList "time=00:00:05.00"], 0, none⟩).barShown = false ∧
    (compress_video "in.mp4" "out.mp4" 28
      ⟨true, .ran 0 (String.toList "0.0"), true,
        [String.toList "time=00:00:05.00"], 0, none⟩).advances = [] ∧
    (compress_video "in.mp4" "out.mp4" 28
      ⟨true, .ran 0 (String.toList "0.0"), true,
        [String.toList "time=00:00:05.00"], 0, none⟩).outcome = EncodeOutcome.success := by
  have h := zero_duration_no_bar "in.mp4" "out.mp4" 28
    ⟨true, .ran 0 (String.toList "0.0"), true, [String.toList "time=00:00:05.00"], 0, none⟩
    rfl rfl rfl
    (by simp [get_video_duration, pyFloat, pyFloatCore, parseExp, parseSignedDigits,
      digitsToNat])
  exact ⟨h.1, h.2.1, h.2.2.2.1 rfl⟩

end VideoCompress
